import Mathlib

/-!
# Verification of the streaming transcription orchestrator (`transcriber.go`)

Shallow embedding of `src/lkgpt-service/pkg/service/transcriber.go`.

The Go module runs as a set of cooperating tasks: a receive loop reading
response batches from the speech service, a send goroutine forwarding
encoded audio, an outer session-rotation loop (`Transcriber.start`), the
packet-ingestion entry point (`Transcriber.WriteRTP`), and shutdown
(`Transcriber.Close`).  We embed each of them as a pure function driven by
an explicit script of the events the surrounding network / OS would
deliver (response batches, receive errors, pipe-read outcomes), and prove
properties of the traces those functions produce.  The external
collaborators (the sample builder, the ogg serializer and the gRPC stream)
are parameters: the theorems quantify over their behaviour.
-/

namespace Transcriber

/-- One entry of `SpeechRecognitionResult.Alternatives`. -/
structure SpeechAlternative where
  transcript : String
  deriving Repr, DecidableEq

/-- One entry of `resp.Results` (a `StreamingRecognitionResult`). -/
structure SpeechResult where
  alternatives : List SpeechAlternative
  isFinal : Bool
  deriving Repr, DecidableEq

/-- One response batch (`StreamingRecognizeResponse`): the service-side
error flag `resp.Error` (modelled as a Bool: `resp.Error != nil`) and the
list of results. -/
structure SpeechResponse where
  error : Bool
  results : List SpeechResult
  deriving Repr, DecidableEq

/-- The value published on the `t.results` channel (`RecognizeResult`).
`error = some e` embeds `RecognizeResult{Error: err}` (whose `Text` and
`IsFinal` are the Go zero values `""` and `false`). -/
structure RecognizeResult where
  error : Option String
  text : String
  isFinal : Bool
  deriving Repr, DecidableEq

/-- Result aggregation over one batch, from `Transcriber.start`:

```go
var sb strings.Builder
final := false
for _, result := range resp.Results {
    alt := result.Alternatives[0]
    text := alt.Transcript
    sb.WriteString(text)
    if result.IsFinal {
        sb.Reset()
        sb.WriteString(text)
        final = true
        break
    }
}
```

`acc` is the accumulated contents of the string builder.  The unguarded
index `result.Alternatives[0]` is embedded by returning `none` (the Go
panic) when a result with an empty alternatives list is reached. -/
def processBatch : List SpeechResult → String → Option (String × Bool)
  | [], acc => some (acc, false)
  | result :: rest, acc =>
    match result.alternatives with
    | [] => none
    | alt :: _ =>
      let text := alt.transcript
      let acc := acc ++ text
      if result.isFinal then
        some (text, true)
      else
        processBatch rest acc

/-- Concatenation of the first-alternative transcripts of a batch, in
batch order (spec-side notion used to state claim C1). -/
def concatTranscripts : List SpeechResult → String
  | [] => ""
  | r :: rest => (r.alternatives.headD ⟨""⟩).transcript ++ concatTranscripts rest

/-- Spec-side description of the aggregation (from the spec's words, for
claim C1): the combined text is the concatenation of the first-alternative
transcripts in batch order, except that the first final result's
transcript alone is kept, and the final flag records whether a final
result occurred. -/
def specCombine (results : List SpeechResult) : String × Bool :=
  match results.find? (·.isFinal) with
  | some r => ((r.alternatives.headD ⟨""⟩).transcript, true)
  | none => (concatTranscripts results, false)

/-- The prefix of a batch the aggregation loop actually visits: every
result up to and including the first one flagged final. -/
def reachedResults : List SpeechResult → List SpeechResult
  | [] => []
  | r :: rest => if r.isFinal then [r] else r :: reachedResults rest

lemma processBatch_ok (results : List SpeechResult)
    (h : ∀ r ∈ reachedResults results, r.alternatives ≠ []) (acc : String) :
    processBatch results acc =
      some (match results.find? (·.isFinal) with
            | some r => ((r.alternatives.headD ⟨""⟩).transcript, true)
            | none => (acc ++ concatTranscripts results, false)) := by
  induction results generalizing acc with
  | nil => simp [processBatch, concatTranscripts]
  | cons r rest ih =>
    have hr : r.alternatives ≠ [] := by
      apply h r
      unfold reachedResults
      by_cases hf : r.isFinal <;> simp [hf]
    obtain ⟨a, as, ha⟩ : ∃ a as, r.alternatives = a :: as := by
      cases hx : r.alternatives with
      | nil => exact absurd hx hr
      | cons a as => exact ⟨a, as, rfl⟩
    by_cases hf : r.isFinal
    · simp [processBatch, ha, hf, List.find?, List.headD]
    · have hrest : ∀ x ∈ reachedResults rest, x.alternatives ≠ [] := by
        intro x hx
        apply h x
        unfold reachedResults
        simp [hf, hx]
      have step : processBatch (r :: rest) acc = processBatch rest (acc ++ a.transcript) := by
        simp [processBatch, ha, hf]
      rw [step, ih hrest]
      simp only [List.find?, hf, concatTranscripts, ha, List.headD]
      cases List.find? (fun x => x.isFinal) rest <;> simp [String.append_assoc]

/-! ## The receive loop

`Transcriber.start`'s inner `for { resp, err := stream.Recv(); ... }`
loop.  Each call of `stream.Recv()` is scripted as a `RecvEvent`: either a
response batch, or a failure classified by its gRPC status code as the
code does (`codes.OutOfRange`, `codes.Canceled`, anything else). -/

/-- One outcome of `stream.Recv()` as the receive loop classifies it. -/
inductive RecvEvent where
  /-- `Recv` returned a response batch. -/
  | resp (r : SpeechResponse)
  /-- `Recv` failed with `codes.OutOfRange` (maximum speech length exceeded). -/
  | errOutOfRange
  /-- `Recv` failed with `codes.Canceled` (the context was canceled by `Close`). -/
  | errCanceled
  /-- `Recv` failed with any other error `e`. -/
  | errOther (e : String)
  deriving Repr, DecidableEq

/-- How the receive loop left off after consuming its script. -/
inductive RecvOutcome where
  /-- The script is exhausted; the loop is blocked in the next `Recv`. -/
  | stillRunning
  /-- `break`: leave the inner loop and rotate to a new speech stream. -/
  | rotate
  /-- `return nil`: context canceled by `Close`. -/
  | closedOk
  /-- `return err` after publishing the error result. -/
  | closedErr (e : String)
  /-- The aggregation indexed `Alternatives[0]` on an empty list. -/
  | panicked
  deriving Repr, DecidableEq

/-- The receive loop of `Transcriber.start`, driven by a script of `Recv`
outcomes.  Returns the list of `RecognizeResult`s sent on `t.results`, in
order, and how the loop ended. -/
def recvLoop : List RecvEvent → List RecognizeResult × RecvOutcome
  | [] => ([], .stillRunning)
  | ev :: rest =>
    match ev with
    | .errOutOfRange => ([], .rotate)
    | .errCanceled => ([], .closedOk)
    | .errOther e => ([⟨some e, "", false⟩], .closedErr e)
    | .resp r =>
      if r.error then
        recvLoop rest
      else
        match processBatch r.results "" with
        | none => ([], .panicked)
        | some (text, final) =>
          let (pubs, out) := recvLoop rest
          (⟨none, text, final⟩ :: pubs, out)

/-- Events appended to a still-running receive loop are processed after the
existing ones, and the earlier publications are unchanged. -/
lemma recvLoop_append (evs₁ evs₂ : List RecvEvent) (pubs : List RecognizeResult)
    (h : recvLoop evs₁ = (pubs, .stillRunning)) :
    recvLoop (evs₁ ++ evs₂) = (pubs ++ (recvLoop evs₂).1, (recvLoop evs₂).2) := by
  induction evs₁ generalizing pubs with
  | nil =>
    simp only [recvLoop] at h
    cases h
    simp
  | cons ev rest ih =>
    cases ev with
    | errOutOfRange => simp [recvLoop] at h
    | errCanceled => simp [recvLoop] at h
    | errOther e => simp [recvLoop] at h
    | resp r =>
      by_cases hr : r.error
      · rw [recvLoop] at h
        simp only [hr, if_pos rfl] at h
        rw [List.cons_append, recvLoop]
        simp only [hr, if_pos rfl]
        exact ih pubs h
      · rw [recvLoop] at h
        simp only [hr] at h
        cases hp : processBatch r.results "" with
        | none => rw [hp] at h; simp at h
        | some tf =>
          rw [hp] at h
          obtain ⟨text, final⟩ := tf
          simp only at h
          cases hrec : recvLoop rest with
          | mk pubs' out' =>
            rw [hrec] at h
            simp only at h
            obtain ⟨hp1, hp2⟩ := Prod.mk.injEq .. ▸ h
            subst hp2
            rw [List.cons_append, recvLoop]
            simp only [hp, if_neg hr]
            rw [ih pubs' hrec]
            simp [← hp1]

/-! ## The send task

The goroutine of `Transcriber.start` that forwards bytes from the ogg pipe
reader to the speech stream.  Each loop iteration is scripted as a
`SendStep`: either the `endStreamCh` case of the `select` is taken, or the
pipe read fails, or the read returns `n` bytes and (when `n > 0`) the
subsequent `stream.Send` has a scripted outcome. -/

/-- Outcome of `stream.Send` as the send task classifies it (`io.EOF`
versus any other error). -/
inductive SendErr where
  | eof
  | other (e : String)
  deriving Repr, DecidableEq

/-- One iteration of the send goroutine's loop. -/
inductive SendStep where
  /-- The `case <-endStreamCh` branch of the `select` is taken. -/
  | stopSignal
  /-- `t.oggReader.Read` failed; `isEOF` tells whether the error is `io.EOF`
  (pipe closure by `Close` yields `io.ErrClosedPipe`, which is not EOF). -/
  | readFail (isEOF : Bool)
  /-- `t.oggReader.Read` returned `n` bytes; when `n > 0` the task calls
  `stream.Send`, whose outcome is `sendErr` (`none` = success). -/
  | readOk (n : Nat) (sendErr : Option SendErr)
  deriving Repr, DecidableEq

/-- Whether the send goroutine has returned after consuming its script. -/
inductive SendOutcome where
  | running
  | exited
  deriving Repr, DecidableEq

/-- The send goroutine of `Transcriber.start`:

```go
for {
    select {
    case <-endStreamCh:
        return
    default:
        n, err := t.oggReader.Read(buf)
        if err != nil { if err != io.EOF { logger.Errorw(...) }; return }
        if n <= 0 { continue }
        if err := stream.Send(...); err != nil {
            if err != io.EOF {
                logger.Errorw(...)
                t.results <- RecognizeResult{Error: err}
            }
            return
        }
    }
}
```

Returns the error results it sends on `t.results`, and whether it has
returned. -/
def sendLoop : List SendStep → List RecognizeResult × SendOutcome
  | [] => ([], .running)
  | step :: rest =>
    match step with
    | .stopSignal => ([], .exited)
    | .readFail _ => ([], .exited)
    | .readOk n sendErr =>
      if n = 0 then sendLoop rest
      else
        match sendErr with
        | none => sendLoop rest
        | some .eof => ([], .exited)
        | some (.other e) => ([⟨some e, "", false⟩], .exited)

/-- Steps appended to a still-running send task are processed after the
existing ones. -/
lemma sendLoop_append (steps₁ steps₂ : List SendStep) (errs : List RecognizeResult)
    (h : sendLoop steps₁ = (errs, .running)) :
    sendLoop (steps₁ ++ steps₂) = (errs ++ (sendLoop steps₂).1, (sendLoop steps₂).2) := by
  induction steps₁ generalizing errs with
  | nil =>
    simp only [sendLoop] at h
    cases h
    simp
  | cons step rest ih =>
    cases step with
    | stopSignal => simp [sendLoop] at h
    | readFail b => simp [sendLoop] at h
    | readOk n sendErr =>
      by_cases hn : n = 0
      · simp only [sendLoop, if_pos hn] at h
        rw [List.cons_append]
        simp only [sendLoop, if_pos hn]
        exact ih errs h
      · simp only [sendLoop, if_neg hn] at h
        cases sendErr with
        | none =>
          rw [List.cons_append]
          simp only [sendLoop, if_neg hn]
          exact ih errs h
        | some se => cases se <;> simp_all

/-! ## The two tasks of one session, interleaved

For claim C4 the send task and the receive loop of one recognition session
must be observed together: a `TaskEvent` script fixes the interleaving of
their iterations, and `sessionRun` threads the joint state through it.
An event addressed to a task that has already returned is ignored (that
task performs no further iterations). -/

/-- An iteration of one of the two concurrent tasks of a session. -/
inductive TaskEvent where
  | send (s : SendStep)
  | recv (r : RecvEvent)
  deriving Repr, DecidableEq

/-- Joint state of the send goroutine and the receive loop. -/
structure SessionState where
  sendSt : SendOutcome
  recvSt : RecvOutcome
  deriving Repr, DecidableEq

/-- Both tasks alive, as when `Transcriber.start` enters **Streaming**. -/
def initSession : SessionState := ⟨.running, .stillRunning⟩

/-- One interleaved step: the addressed task performs one loop iteration
(matching `sendLoop` / `recvLoop`), yielding the results it publishes. -/
def sessionStep (st : SessionState) : TaskEvent → SessionState × List RecognizeResult
  | .send s =>
    match st.sendSt with
    | .exited => (st, [])
    | .running =>
      match s with
      | .stopSignal => ({ st with sendSt := .exited }, [])
      | .readFail _ => ({ st with sendSt := .exited }, [])
      | .readOk n sendErr =>
        if n = 0 then (st, [])
        else
          match sendErr with
          | none => (st, [])
          | some .eof => ({ st with sendSt := .exited }, [])
          | some (.other e) => ({ st with sendSt := .exited }, [⟨some e, "", false⟩])
  | .recv r =>
    match st.recvSt with
    | .stillRunning =>
      match r with
      | .errOutOfRange => ({ st with recvSt := .rotate }, [])
      | .errCanceled => ({ st with recvSt := .closedOk }, [])
      | .errOther e => ({ st with recvSt := .closedErr e }, [⟨some e, "", false⟩])
      | .resp resp =>
        if resp.error then (st, [])
        else
          match processBatch resp.results "" with
          | none => ({ st with recvSt := .panicked }, [])
          | some (text, final) => (st, [⟨none, text, final⟩])
    | _ => (st, [])

/-- Run a whole interleaving script, collecting the published results in
order. -/
def sessionRun (st : SessionState) : List TaskEvent → SessionState × List RecognizeResult
  | [] => (st, [])
  | ev :: rest =>
    let (st₁, pubs₁) := sessionStep st ev
    let (st₂, pubs₂) := sessionRun st₁ rest
    (st₂, pubs₁ ++ pubs₂)

/-- Does this event deliver a transport error other than the max-duration
(`OutOfRange`) and canceled conditions (and other than `io.EOF` on send)?
If so, which error string. -/
def otherErrorEvent : TaskEvent → Option String
  | .send (.readOk n (some (.other e))) => if n = 0 then none else some e
  | .recv (.errOther e) => some e
  | _ => none

/-- Claim C4 as stated: after any error-free prefix, a send or receive
transport error other than the max-duration and canceled conditions leads
to exactly one published result carrying that error, and the session then
terminates (the internal receive loop leaves its running state). -/
def claimC4 : Prop :=
  ∀ (pre : List TaskEvent) (ev : TaskEvent) (e : String),
    (∀ ev' ∈ pre, otherErrorEvent ev' = none) →
    otherErrorEvent ev = some e →
    (sessionRun initSession (pre ++ [ev])).2.count ⟨some e, "", false⟩ = 1 ∧
    (sessionRun initSession (pre ++ [ev])).1.recvSt ≠ .stillRunning

/-! ## The outer rotation loop (`Transcriber.start`) and `Transcriber.Close`

`startTrace` interprets the outer `for { ... }` loop of `start` over a
script of sessions, producing the ordered trace of its observable actions.
Each `SessionScript` fixes whether `t.newStream()` succeeds and, if so,
the receive outcomes of that session.  `Close` is modelled by `closeTrace`
on top of it. -/

/-- An observable action of `Transcriber.start` / `Transcriber.Close`. -/
inductive Action where
  /-- `t.newStream()` is called (a recognition session is opened). -/
  | newStream
  /-- `t.results <- r`. -/
  | publish (r : RecognizeResult)
  /-- `close(endStreamCh)`: the send task is signalled to stop. -/
  | closeEndStream
  /-- `<-nextCh`: wait for the send task to exit. -/
  | waitSendTask
  /-- `t.oggSerializer = nil` under `t.lock`: the encoder is discarded
  (`start` performs no operation on the sample builder `t.sb`, which is
  therefore kept across rotations). -/
  | resetSerializer
  /-- `close(t.closeCh)` from the deferred function, as `start` returns. -/
  | closeCloseCh
  /-- `t.oggWriter.Close()` in `Close`. -/
  | closeOggWriter
  /-- `close(t.results)` in `Close`. -/
  | closeResults
  deriving Repr, DecidableEq

/-- Script for one iteration of the outer loop: the outcome of
`t.newStream()` and, on success, the receive outcomes of the session. -/
structure SessionScript where
  openErr : Option String
  events : List RecvEvent
  deriving Repr, DecidableEq

/-- How the outer loop left off. -/
inductive StartOutcome where
  /-- `start` returned with this error (`none` embeds `return nil`);
  the deferred `close(t.closeCh)` has run. -/
  | returned (err : Option String)
  /-- The script is exhausted while the loop is still live. -/
  | scriptEnded
  /-- The aggregation panicked on an empty alternatives list. -/
  | panicked
  deriving Repr, DecidableEq

/-- The outer loop of `Transcriber.start`:

```go
for {
    stream, err := t.newStream()
    if err != nil { return err }
    ...go send task...
    for { resp, err := stream.Recv(); ... }   // recvLoop
    close(endStreamCh)
    <-nextCh
    t.lock.Lock()
    t.oggSerializer = nil
    t.lock.Unlock()
}
```

The trace interleaves, in program order, the session openings, the results
published by the receive loop, and the rotation / return actions. -/
def startTrace : List SessionScript → List Action × StartOutcome
  | [] => ([], .scriptEnded)
  | s :: rest =>
    match s.openErr with
    | some e => ([.newStream, .closeCloseCh], .returned (some e))
    | none =>
      let (pubs, out) := recvLoop s.events
      let acts := Action.newStream :: pubs.map Action.publish
      match out with
      | .stillRunning => (acts, .scriptEnded)
      | .rotate =>
        let (acts₂, out₂) := startTrace rest
        (acts ++ [Action.closeEndStream, Action.waitSendTask, Action.resetSerializer] ++ acts₂, out₂)
      | .closedOk => (acts ++ [Action.closeCloseCh], .returned none)
      | .closedErr e => (acts ++ [Action.closeCloseCh], .returned (some e))
      | .panicked => (acts, .panicked)

/-- `Transcriber.Close`:

```go
func (t *Transcriber) Close() {
    t.cancel()
    <-t.closeCh
    t.oggWriter.Close()
    close(t.results)
}
```

`t.cancel()` is embedded by the script delivering `errCanceled` (the
canceled condition the cancellation induces on the pending `Recv`);
`<-t.closeCh` blocks until `start` has returned, so the shutdown trace is
defined exactly when `startTrace`'s outcome is `returned`, and then
appends the writer closure and the result-stream closure after the whole
loop trace. -/
def closeTrace (script : List SessionScript) : Option (List Action) :=
  match startTrace script with
  | (acts, .returned _) => some (acts ++ [Action.closeOggWriter, Action.closeResults])
  | _ => none

/-- The producing loop itself never closes the output stream nor the pipe
writer: its trace contains no `closeResults` and no `closeOggWriter`. -/
lemma startTrace_no_close (script : List SessionScript) :
    (startTrace script).1.count Action.closeResults = 0 ∧
    (startTrace script).1.count Action.closeOggWriter = 0 := by
  induction script with
  | nil => simp [startTrace]
  | cons s rest ih =>
    rw [startTrace]
    cases s.openErr with
    | some e => simp [List.count_cons]
    | none =>
      cases hrec : recvLoop s.events with
      | mk pubs out =>
        have hpubs : ∀ a ∈ pubs.map Action.publish,
            a ≠ Action.closeResults ∧ a ≠ Action.closeOggWriter := by
          intro a ha
          obtain ⟨r, _, hr⟩ := List.mem_map.1 ha
          constructor <;> (rw [← hr]; intro hc; cases hc)
        cases out <;>
          simp_all [List.count_append, List.count_cons, List.count_eq_zero]

/-- When `start` has returned, the deferred `close(t.closeCh)` action is in
its trace. -/
lemma startTrace_closeCloseCh (script : List SessionScript) (acts : List Action)
    (e : Option String) (h : startTrace script = (acts, .returned e)) :
    Action.closeCloseCh ∈ acts := by
  induction script generalizing acts e with
  | nil => simp [startTrace] at h
  | cons s rest ih =>
    rw [startTrace] at h
    cases hs : s.openErr with
    | some e' => rw [hs] at h; cases h; simp
    | none =>
      rw [hs] at h
      cases hrec : recvLoop s.events with
      | mk pubs out =>
        rw [hrec] at h
        cases out with
        | stillRunning => simp at h
        | rotate =>
          simp only at h
          cases hrest : startTrace rest with
          | mk acts₂ out₂ =>
            rw [hrest] at h
            obtain ⟨h1, h2⟩ := Prod.mk.injEq .. ▸ h
            subst h2
            have := ih acts₂ e hrest
            rw [← h1]
            simp [this]
        | closedOk => cases h; simp
        | closedErr e' => cases h; simp
        | panicked => simp at h

/-! ## Construction (`NewTranscriber`) -/

/-- The fields of `webrtc.RTPCodecParameters` the module reads. -/
structure RTPCodecParameters where
  mimeType : String
  clockRate : Nat
  channels : Nat
  deriving Repr, DecidableEq

/-- ASCII lower-casing of one character. -/
def asciiLower (c : Char) : Char :=
  if 'A' ≤ c ∧ c ≤ 'Z' then Char.ofNat (c.toNat + 32) else c

/-- ASCII upper-casing of one character. -/
def asciiUpper (c : Char) : Char :=
  if 'a' ≤ c ∧ c ≤ 'z' then Char.ofNat (c.toNat - 32) else c

/-- The Unicode simple case-folding orbit of an ASCII rune (per Unicode's
CaseFolding.txt simple folds): an ASCII letter folds with its other-case
ASCII counterpart, plus — for exactly two letters — one non-ASCII orbit
member: `ſ` (U+017F LATIN SMALL LETTER LONG S) folds with `s`/`S`, and
`K` (U+212A KELVIN SIGN) folds with `k`/`K`.  Every other ASCII rune folds
only with itself. -/
def foldOrbit (c : Char) : List Char :=
  let l := asciiLower c
  if 'a' ≤ l ∧ l ≤ 'z' then
    [l, asciiUpper l] ++
      (if l = 's' then [Char.ofNat 0x17F]
       else if l = 'k' then [Char.ofNat 0x212A]
       else [])
  else [c]

/-- Unicode simple case-folding equivalence of one rune pair, as
`strings.EqualFold` decides it, faithful whenever at least one rune of the
pair is ASCII (the orbit of an ASCII rune is finite and listed in
`foldOrbit`).  `NewTranscriber` only ever compares against the ASCII
literal `"audio/opus"` and `EqualFold` pairs runes positionally, so every
pair it queries contains an ASCII rune and falls in the faithful case;
for a pair of two non-ASCII runes the model conservatively requires
equality, a case no call in this module reaches. -/
def charFoldEq (a b : Char) : Bool :=
  a == b ||
  (a.toNat < 128 && (foldOrbit a).contains b) ||
  (b.toNat < 128 && (foldOrbit b).contains a)

/-- `strings.EqualFold`: true iff the two strings have the same rune count
and each positional rune pair lies in one simple case-folding orbit
(equivalent to Go's two-pointer loop, which fails at the first pair not in
one orbit and otherwise checks both strings are exhausted together). -/
def equalFold (a b : String) : Bool :=
  a.data.length == b.data.length &&
  (a.data.zip b.data).all fun p => charFoldEq p.1 p.2

lemma equalFold_examples :
    equalFold "AUDIO/OPUS" "audio/opus" = true ∧
    equalFold "audio/opuſ" "audio/opus" = true ∧
    equalFold "audio/pcmu" "audio/opus" = false := by
  decide

/-- The state `NewTranscriber` builds on success.  `goStarted` records that
`go t.start()` was launched; `oggSerializer` starts absent (it is lazily
created by `WriteRTP`). -/
structure TranscriberHandle where
  rtpCodec : RTPCodecParameters
  sbMaxLate : Nat
  sbClockRate : Nat
  oggSerializerPresent : Bool
  goStarted : Bool
  deriving Repr, DecidableEq

/-- `NewTranscriber`:

```go
func NewTranscriber(rtpCodec webrtc.RTPCodecParameters, ...) (*Transcriber, error) {
    if !strings.EqualFold(rtpCodec.MimeType, "audio/opus") {
        return nil, errors.New("only opus is supported")
    }
    ...
    t := &Transcriber{ ..., sb: samplebuilder.New(200, &codecs.OpusPacket{}, rtpCodec.ClockRate), ... }
    go t.start()
    return t, nil
}
```

The rejection branch precedes every allocation: no pipe, no sample
builder, no goroutine exists when the error is returned, which the
embedding renders by returning `Except.error` with no handle. -/
def NewTranscriber (rtpCodec : RTPCodecParameters) : Except String TranscriberHandle :=
  if ¬ equalFold rtpCodec.mimeType "audio/opus" then
    .error "only opus is supported"
  else
    .ok { rtpCodec := rtpCodec, sbMaxLate := 200, sbClockRate := rtpCodec.clockRate,
          oggSerializerPresent := false, goStarted := true }

/-! ## Packet ingestion (`Transcriber.WriteRTP`)

The collaborators are parameters: `newWith` is the outcome of
`oggwriter.NewWith(t.oggWriter, ClockRate, Channels)`, `push`/`popPackets`
are the sample builder's operations on its abstract state, and
`writeFrame` is the serializer's `WriteRTP`, returning the error (if any)
and its updated state. -/

/-- The `for _, p := range t.sb.PopPackets()` loop body: feed each popped
packet to the serializer, stopping at (and returning) the first error. -/
def feedFrames {Enc Pkt : Type} (writeFrame : Enc → Pkt → Option String × Enc) :
    Enc → List Pkt → Option String × Enc
  | enc, [] => (none, enc)
  | enc, p :: ps =>
    match writeFrame enc p with
    | (some e, enc') => (some e, enc')
    | (none, enc') => feedFrames writeFrame enc' ps

/-- The body of `WriteRTP` once a serializer exists. -/
def writeRTPBody {Enc SB Pkt : Type}
    (push : SB → Pkt → SB) (popPackets : SB → SB × List Pkt)
    (writeFrame : Enc → Pkt → Option String × Enc)
    (enc : Enc) (sb : SB) (pkt : Pkt) : Option String × Option Enc × SB :=
  let sb₁ := push sb pkt
  let (sb₂, pkts) := popPackets sb₁
  let (res, enc') := feedFrames writeFrame enc pkts
  (res, some enc', sb₂)

/-- `Transcriber.WriteRTP`:

```go
func (t *Transcriber) WriteRTP(pkt *rtp.Packet) error {
    t.lock.Lock(); defer t.lock.Unlock()
    if t.oggSerializer == nil {
        oggSerializer, err := oggwriter.NewWith(t.oggWriter, ...)
        if err != nil { ...; return err }
        t.oggSerializer = oggSerializer
    }
    t.sb.Push(pkt)
    for _, p := range t.sb.PopPackets() {
        if err := t.oggSerializer.WriteRTP(p); err != nil { return err }
    }
    return nil
}
```

Returns (call result, serializer state after the call, sample-builder
state after the call). -/
def WriteRTP {Enc SB Pkt : Type}
    (newWith : Except String Enc)
    (push : SB → Pkt → SB) (popPackets : SB → SB × List Pkt)
    (writeFrame : Enc → Pkt → Option String × Enc)
    (oggSerializer : Option Enc) (sb : SB) (pkt : Pkt) :
    Option String × Option Enc × SB :=
  match oggSerializer with
  | none =>
    match newWith with
    | .error e => (some e, none, sb)
    | .ok enc => writeRTPBody push popPackets writeFrame enc sb pkt
  | some enc => writeRTPBody push popPackets writeFrame enc sb pkt

/-- Spec-side (claim C6): the packets actually fed to the serializer are
the popped prefix up to and including the first failing one. -/
def fedPrefix {Pkt : Type} (script : Pkt → Option String) : List Pkt → List Pkt
  | [] => []
  | p :: ps =>
    match script p with
    | some _ => [p]
    | none => p :: fedPrefix script ps

/-- Spec-side (claim C6): the first encoding error among the popped
packets, in order. -/
def firstErr {Pkt : Type} (script : Pkt → Option String) : List Pkt → Option String
  | [] => none
  | p :: ps =>
    match script p with
    | some e => some e
    | none => firstErr script ps

/-- With a serializer instrumented to log the packets fed to it (state =
log, per-packet outcome scripted), `feedFrames` feeds exactly the prefix
up to and including the first failure and returns that failure. -/
lemma feedFrames_instr {Pkt : Type} (script : Pkt → Option String)
    (log : List Pkt) (ps : List Pkt) :
    feedFrames (fun l p => (script p, l ++ [p])) log ps =
      (firstErr script ps, log ++ fedPrefix script ps) := by
  induction ps generalizing log with
  | nil => simp [feedFrames, fedPrefix, firstErr]
  | cons p ps ih =>
    rw [feedFrames]
    cases hs : script p with
    | some e => simp [firstErr, fedPrefix, hs]
    | none =>
      simp only [hs]
      rw [ih]
      simp [firstErr, fedPrefix, hs]

/-! ## Claim theorems -/

/-- C1: for every received response batch that is not flagged as a
service-side error (and whose visited results each carry an alternative,
cf. C9), the published result text equals the concatenation of the
transcripts of the results in batch order, except that the first result
flagged final resets the accumulated text to that result's transcript
alone and halts further combination within the batch, and the published
is-final flag is true exactly when such a final result was encountered. -/
theorem batch_aggregation_matches_spec (results : List SpeechResult)
    (rest : List RecvEvent)
    (h : ∀ r ∈ reachedResults results, r.alternatives ≠ []) :
    processBatch results "" = some (specCombine results) ∧
    recvLoop (.resp ⟨false, results⟩ :: rest) =
      (⟨none, (specCombine results).1, (specCombine results).2⟩ :: (recvLoop rest).1,
       (recvLoop rest).2) := by
  have hp := processBatch_ok results h ""
  have hmain : processBatch results "" = some (specCombine results) := by
    rw [hp]
    unfold specCombine
    cases List.find? (fun x => x.isFinal) results <;> simp
  refine ⟨hmain, ?_⟩
  rw [recvLoop]
  simp [hmain]

/-- Witness for C1 at the spec's example batch
`[interim "hel", interim "hello", final "hello world"]`: the published
value is text `"hello world"` with `isFinal = true`. -/
theorem batch_aggregation_matches_spec_witness :
    (∀ r ∈ reachedResults
        [⟨[⟨"hel"⟩], false⟩, ⟨[⟨"hello"⟩], false⟩, ⟨[⟨"hello world"⟩], true⟩],
      r.alternatives ≠ []) ∧
    recvLoop [.resp ⟨false,
        [⟨[⟨"hel"⟩], false⟩, ⟨[⟨"hello"⟩], false⟩, ⟨[⟨"hello world"⟩], true⟩]⟩] =
      ([⟨none, "hello world", true⟩], .stillRunning) := by
  constructor
  · decide
  · have h := batch_aggregation_matches_spec
      [⟨[⟨"hel"⟩], false⟩, ⟨[⟨"hello"⟩], false⟩, ⟨[⟨"hello world"⟩], true⟩] []
      (by decide)
    rw [h.2]
    decide

/-- C8: a response batch flagged with a service-side error is skipped: no
result is published for it and the receive loop continues with the next
batch, with identical publications and outcome. -/
theorem error_batch_skipped (results : List SpeechResult) (rest : List RecvEvent) :
    recvLoop (.resp ⟨true, results⟩ :: rest) = recvLoop rest := by
  rw [recvLoop]
  simp

/-- C10: a non-error batch with an empty results list is not skipped: the
loop publishes a result with empty text and `isFinal = false`, then
continues. -/
theorem empty_batch_publishes_empty_interim (rest : List RecvEvent) :
    recvLoop (.resp ⟨false, []⟩ :: rest) =
      (⟨none, "", false⟩ :: (recvLoop rest).1, (recvLoop rest).2) := by
  rw [recvLoop]
  simp [processBatch]

/-- Claim C9 as stated: the aggregation's unguarded `Alternatives[0]` is
safe when every result of the batch carries at least one alternative, and
for every batch containing a result with an empty alternatives list the
indexing is undefined (panics, embedded as `none`). -/
def claimC9 : Prop :=
  (∀ results : List SpeechResult, (∀ r ∈ results, r.alternatives ≠ []) →
    (processBatch results "").isSome) ∧
  (∀ results : List SpeechResult, (∃ r ∈ results, r.alternatives = []) →
    processBatch results "" = none)

/-- C9 counterexample: the batch `[final "hello world", ⟨no alternatives⟩]`
contains a result with an empty alternatives list, yet the aggregation
does not panic — the final result halts the loop before the empty one is
reached, and `some ("hello world", true)` is produced. -/
theorem alternatives_indexing_claim_false : ¬claimC9 := by
  intro h
  have h2 := h.2 [⟨[⟨"hello world"⟩], true⟩, ⟨[], false⟩]
    ⟨⟨[], false⟩, by simp, rfl⟩
  exact absurd h2 (by decide)

/-- C9 amended: the aggregation panics exactly when a result with an empty
alternatives list is *reached*, i.e. occurs no later than the first result
flagged final (results after the first final are never visited). -/
theorem alternatives_indexing_characterized (results : List SpeechResult)
    (acc : String) :
    processBatch results acc = none ↔
      ∃ r ∈ reachedResults results, r.alternatives = [] := by
  induction results generalizing acc with
  | nil => simp [processBatch, reachedResults]
  | cons r rest ih =>
    cases ha : r.alternatives with
    | nil =>
      have hmem : r ∈ reachedResults (r :: rest) := by
        unfold reachedResults
        by_cases hf : r.isFinal <;> simp [hf]
      have hnone : processBatch (r :: rest) acc = none := by
        simp [processBatch, ha]
      exact iff_of_true hnone ⟨r, hmem, ha⟩
    | cons a as =>
      by_cases hf : r.isFinal
      · simp [processBatch, ha, hf, reachedResults]
      · have step : processBatch (r :: rest) acc = processBatch rest (acc ++ a.transcript) := by
          simp [processBatch, ha, hf]
        have hreach : reachedResults (r :: rest) = r :: reachedResults rest := by
          simp [reachedResults, hf]
        rw [step, ih, hreach]
        simp [ha]

/-- C2: when `Recv` fails with the max-duration (`OutOfRange`) condition
after any still-running prefix of events, no result is published for that
failure, and the outer loop performs — in order — the stop signal to the
send task (`close(endStreamCh)`), the wait for its exit (`<-nextCh`), the
discarding of the serializer (`t.oggSerializer = nil`; `start` contains no
operation on the sample builder, which is kept), and then immediately
opens the replacement session (the next trace action is `newStream`). -/
theorem rotation_transparent (evs : List RecvEvent) (pubs : List RecognizeResult)
    (s' : SessionScript) (rest : List SessionScript)
    (h : recvLoop evs = (pubs, .stillRunning)) :
    recvLoop (evs ++ [.errOutOfRange]) = (pubs, .rotate) ∧
    startTrace (⟨none, evs ++ [.errOutOfRange]⟩ :: s' :: rest) =
      (Action.newStream :: pubs.map Action.publish ++
        ([Action.closeEndStream, Action.waitSendTask, Action.resetSerializer] ++ (startTrace (s' :: rest)).1),
       (startTrace (s' :: rest)).2) ∧
    (startTrace (s' :: rest)).1.head? = some Action.newStream := by
  have h1 : recvLoop (evs ++ [.errOutOfRange]) = (pubs, .rotate) := by
    rw [recvLoop_append evs [.errOutOfRange] pubs h]
    simp [recvLoop]
  refine ⟨h1, ?_, ?_⟩
  · rw [startTrace]
    simp only [h1]
    cases hrest : startTrace (s' :: rest) with
    | mk acts₂ out₂ => simp
  · rw [startTrace]
    cases hs : s'.openErr with
    | some e => simp
    | none =>
      cases hrec : recvLoop s'.events with
      | mk pubs' out' => cases out' <;> simp

/-- Witness for C2: an immediate max-duration failure in the first session,
followed by one replacement session. -/
theorem rotation_transparent_witness :
    recvLoop ([] ++ [RecvEvent.errOutOfRange]) = ([], .rotate) ∧
    startTrace (⟨none, [] ++ [RecvEvent.errOutOfRange]⟩ :: (⟨none, []⟩ : SessionScript) :: []) =
      (Action.newStream :: List.map Action.publish [] ++
        ([Action.closeEndStream, Action.waitSendTask, Action.resetSerializer] ++
          (startTrace [(⟨none, []⟩ : SessionScript)]).1),
       (startTrace [(⟨none, []⟩ : SessionScript)]).2) ∧
    (startTrace [(⟨none, []⟩ : SessionScript)]).1.head? = some Action.newStream :=
  rotation_transparent [] [] ⟨none, []⟩ [] (by decide)

/-- C5: once the producing loop has returned (which `<-t.closeCh` waits
for), `Close` appends the writer closure and then the result-stream
closure: the full trace closes the output stream exactly once, as its very
last action — in particular after every `publish` and after the loop-exit
signal `close(t.closeCh)`, which itself precedes `t.oggWriter.Close()` —
and while the loop has not returned, `Close` is still blocked and the
stream is not closed at all. -/
theorem close_serializes_shutdown (script : List SessionScript)
    (acts : List Action) (out : StartOutcome) (e : Option String)
    (h : startTrace script = (acts, out)) :
    (out = .returned e →
      closeTrace script = some (acts ++ [Action.closeOggWriter, Action.closeResults]) ∧
      (acts ++ [Action.closeOggWriter, Action.closeResults]).count Action.closeResults = 1 ∧
      (acts ++ [Action.closeOggWriter, Action.closeResults]).getLast? = some Action.closeResults ∧
      Action.closeCloseCh ∈ acts ∧
      acts.count Action.closeResults = 0) ∧
    ((∀ e', out ≠ .returned e') → closeTrace script = none) := by
  constructor
  · intro hret
    subst hret
    have hno := startTrace_no_close script
    rw [h] at hno
    refine ⟨by rw [closeTrace, h], ?_, ?_, startTrace_closeCloseCh script acts e h, hno.1⟩
    · rw [List.count_append, hno.1]
      decide
    · rw [show acts ++ [Action.closeOggWriter, Action.closeResults] =
          (acts ++ [Action.closeOggWriter]) ++ [Action.closeResults] by simp,
        List.getLast?_concat]
  · intro hne
    rw [closeTrace, h]
    cases out with
    | returned e' => exact absurd rfl (hne e')
    | scriptEnded => rfl
    | panicked => rfl

/-- Witness for C5 on a run whose single session is canceled by `Close`. -/
theorem close_serializes_shutdown_witness :
    ((.returned none : StartOutcome) = .returned none →
      closeTrace [⟨none, [RecvEvent.errCanceled]⟩] =
        some ([Action.newStream, Action.closeCloseCh] ++ [Action.closeOggWriter, Action.closeResults]) ∧
      ([Action.newStream, Action.closeCloseCh] ++
        [Action.closeOggWriter, Action.closeResults]).count Action.closeResults = 1 ∧
      ([Action.newStream, Action.closeCloseCh] ++
        [Action.closeOggWriter, Action.closeResults]).getLast? = some Action.closeResults ∧
      Action.closeCloseCh ∈ [Action.newStream, Action.closeCloseCh] ∧
      [Action.newStream, Action.closeCloseCh].count Action.closeResults = 0) ∧
    ((∀ e', (.returned none : StartOutcome) ≠ .returned e') →
      closeTrace [⟨none, [RecvEvent.errCanceled]⟩] = none) :=
  close_serializes_shutdown [⟨none, [RecvEvent.errCanceled]⟩]
    [Action.newStream, Action.closeCloseCh] (.returned none) none (by decide)

/-- C3: cancellation is clean.  The canceled condition makes the pending
`Recv` unblock with no published result (`return nil`); the send task,
unblocked by the pipe closure (`io.ErrClosedPipe`, not EOF), exits with no
published result; and once the loop has returned, `Close` closes the
output stream exactly once, as the last action of the shutdown trace. -/
theorem cancellation_clean
    (evs : List RecvEvent) (pubs : List RecognizeResult)
    (steps : List SendStep) (errs : List RecognizeResult)
    (script : List SessionScript) (acts : List Action) (e : Option String)
    (hrecv : recvLoop evs = (pubs, .stillRunning))
    (hsend : sendLoop steps = (errs, .running))
    (hstart : startTrace script = (acts, .returned e)) :
    recvLoop (evs ++ [.errCanceled]) = (pubs, .closedOk) ∧
    sendLoop (steps ++ [.readFail false]) = (errs, .exited) ∧
    closeTrace script = some (acts ++ [Action.closeOggWriter, Action.closeResults]) ∧
    (acts ++ [Action.closeOggWriter, Action.closeResults]).count Action.closeResults = 1 ∧
    (acts ++ [Action.closeOggWriter, Action.closeResults]).getLast? = some Action.closeResults := by
  have hno := startTrace_no_close script
  rw [hstart] at hno
  refine ⟨?_, ?_, by rw [closeTrace, hstart], ?_, ?_⟩
  · rw [recvLoop_append evs [.errCanceled] pubs hrecv]
    simp [recvLoop]
  · rw [sendLoop_append steps [.readFail false] errs hsend]
    simp [sendLoop]
  · rw [List.count_append, hno.1]
    decide
  · rw [show acts ++ [Action.closeOggWriter, Action.closeResults] =
        (acts ++ [Action.closeOggWriter]) ++ [Action.closeResults] by simp,
      List.getLast?_concat]

/-- Witness for C3: an immediately canceled session. -/
theorem cancellation_clean_witness :
    recvLoop ([] ++ [RecvEvent.errCanceled]) = ([], .closedOk) ∧
    sendLoop ([] ++ [SendStep.readFail false]) = ([], .exited) ∧
    closeTrace [⟨none, [RecvEvent.errCanceled]⟩] =
      some ([Action.newStream, Action.closeCloseCh] ++ [Action.closeOggWriter, Action.closeResults]) ∧
    ([Action.newStream, Action.closeCloseCh] ++
      [Action.closeOggWriter, Action.closeResults]).count Action.closeResults = 1 ∧
    ([Action.newStream, Action.closeCloseCh] ++
      [Action.closeOggWriter, Action.closeResults]).getLast? = some Action.closeResults :=
  cancellation_clean [] [] [] [] [⟨none, [RecvEvent.errCanceled]⟩]
    [Action.newStream, Action.closeCloseCh] none (by decide) (by decide) (by decide)

/-- C4 counterexample: a send-side transport error (read 1 byte, `Send`
fails with a non-EOF error) publishes the error result, but the receive
loop of the session is still running afterwards — the session does not
terminate, contradicting the claim as stated. -/
theorem transport_error_claim_false : ¬claimC4 := by
  intro h
  have h2 := h [] (.send (.readOk 1 (some (.other "boom")))) "boom"
    (by intro ev' hev'; exact absurd hev' (List.not_mem_nil ev'))
    (by decide)
  exact absurd h2.2 (by decide)

/-- C4 amended: a receive transport error other than the max-duration and
canceled conditions is published exactly once and makes the loop return
with that error (Closed); a send error other than EOF is published exactly
once and makes the send task exit, but it leaves the receive loop's state
untouched — the session terminates only when the receive side hits its own
terminal condition. -/
theorem transport_error_surfaced (evs : List RecvEvent) (pubs : List RecognizeResult)
    (e : String) (rest : List SessionScript)
    (steps : List SendStep) (errs : List RecognizeResult) (n : Nat) (e' : String)
    (hrecv : recvLoop evs = (pubs, .stillRunning))
    (hsend : sendLoop steps = (errs, .running)) (hn : n ≠ 0) :
    recvLoop (evs ++ [.errOther e]) = (pubs ++ [⟨some e, "", false⟩], .closedErr e) ∧
    startTrace (⟨none, evs ++ [.errOther e]⟩ :: rest) =
      (Action.newStream :: (pubs ++ [(⟨some e, "", false⟩ : RecognizeResult)]).map
        Action.publish ++ [Action.closeCloseCh], .returned (some e)) ∧
    sendLoop (steps ++ [.readOk n (some (.other e'))]) =
      (errs ++ [⟨some e', "", false⟩], .exited) ∧
    (∀ st : SessionState,
      (sessionStep st (.send (.readOk n (some (.other e'))))).1.recvSt = st.recvSt) := by
  have h1 : recvLoop (evs ++ [.errOther e]) =
      (pubs ++ [⟨some e, "", false⟩], .closedErr e) := by
    rw [recvLoop_append evs [.errOther e] pubs hrecv]
    simp [recvLoop]
  refine ⟨h1, ?_, ?_, ?_⟩
  · rw [startTrace]
    simp [h1]
  · rw [sendLoop_append steps [.readOk n (some (.other e'))] errs hsend]
    simp [sendLoop, hn]
  · intro st
    obtain ⟨ss, rs⟩ := st
    cases ss <;> simp [sessionStep, hn]

/-- Witness for the amended C4: one receive error and one send error, each
surfaced once. -/
theorem transport_error_surfaced_witness :
    recvLoop ([] ++ [RecvEvent.errOther "recv fail"]) =
      ([] ++ [⟨some "recv fail", "", false⟩], .closedErr "recv fail") ∧
    startTrace (⟨none, [] ++ [RecvEvent.errOther "recv fail"]⟩ :: []) =
      (Action.newStream :: ([] ++ [(⟨some "recv fail", "", false⟩ : RecognizeResult)]).map
        Action.publish ++ [Action.closeCloseCh], .returned (some "recv fail")) ∧
    sendLoop ([] ++ [SendStep.readOk 1 (some (.other "send fail"))]) =
      ([] ++ [⟨some "send fail", "", false⟩], .exited) ∧
    (∀ st : SessionState,
      (sessionStep st (.send (.readOk 1 (some (.other "send fail"))))).1.recvSt = st.recvSt) :=
  transport_error_surfaced [] [] "recv fail" [] [] [] 1 "send fail"
    (by decide) (by decide) (by decide)

/-- With the instrumented serializer, the body of `WriteRTP` pushes the
packet, pops the ready frames, and feeds exactly the popped prefix up to
and including the first failing frame. -/
lemma writeRTPBody_instr {SB : Type} (push : SB → Nat → SB)
    (popPackets : SB → SB × List Nat) (script : Nat → Option String)
    (log₀ : List Nat) (sb : SB) (pkt : Nat) :
    writeRTPBody push popPackets (fun l p => (script p, l ++ [p])) log₀ sb pkt =
      (firstErr script (popPackets (push sb pkt)).2,
       some (log₀ ++ fedPrefix script (popPackets (push sb pkt)).2),
       (popPackets (push sb pkt)).1) := by
  unfold writeRTPBody
  cases hpop : popPackets (push sb pkt) with
  | mk sb₂ pkts => simp [hpop, feedFrames_instr]

/-- C6: `WriteRTP` lazily constructs the serializer when absent, returning
the construction error (with nothing pushed) if that fails; otherwise it
pushes the packet into the sample builder, pops the frames now ready, and
feeds them to the serializer in order, the serializer receiving exactly the
popped prefix up to and including the first failing frame, whose error is
the call's result (`none` = the call returns nil).  The serializer's
behaviour is scripted by `script` and its state instrumented as the log of
frames fed to it. -/
theorem writeRTP_contract {SB : Type} (newWith : Except String (List Nat))
    (push : SB → Nat → SB) (popPackets : SB → SB × List Nat)
    (script : Nat → Option String)
    (oggSerializer : Option (List Nat)) (sb : SB) (pkt : Nat) :
    (∀ e, oggSerializer = none → newWith = .error e →
      WriteRTP newWith push popPackets (fun l p => (script p, l ++ [p]))
        oggSerializer sb pkt = (some e, none, sb)) ∧
    (∀ log₀, (oggSerializer = some log₀ ∨ (oggSerializer = none ∧ newWith = .ok log₀)) →
      WriteRTP newWith push popPackets (fun l p => (script p, l ++ [p]))
        oggSerializer sb pkt =
        (firstErr script (popPackets (push sb pkt)).2,
         some (log₀ ++ fedPrefix script (popPackets (push sb pkt)).2),
         (popPackets (push sb pkt)).1)) := by
  constructor
  · intro e h1 h2
    subst h1
    simp only [WriteRTP, h2]
  · intro log₀ hcase
    rcases hcase with hser | ⟨hser, hok⟩
    · subst hser
      simp only [WriteRTP, writeRTPBody_instr]
    · subst hser
      simp only [WriteRTP, hok, writeRTPBody_instr]

/-- Witness for C6: a failing lazy construction returns its error with the
sample builder untouched; with a serializer present, a packet whose popped
frames are `[5, 7]` where frame `7` fails to encode yields that error,
with exactly `[5, 7]` fed. -/
theorem writeRTP_contract_witness :
    WriteRTP (Except.error "new failed" : Except String (List Nat))
      (fun (s : List Nat) p => s ++ [p]) (fun s => ([], s))
      (fun l p => ((fun q => if q = 7 then some "boom" else none) p, l ++ [p]))
      none [5] 6 = (some "new failed", none, [5]) ∧
    WriteRTP (Except.ok [] : Except String (List Nat))
      (fun (s : List Nat) p => s ++ [p]) (fun s => ([], s))
      (fun l p => ((fun q => if q = 7 then some "boom" else none) p, l ++ [p]))
      (some []) [5] 7 = (some "boom", some [5, 7], []) := by
  constructor
  · exact (writeRTP_contract (Except.error "new failed")
      (fun (s : List Nat) p => s ++ [p]) (fun s => (([] : List Nat), s))
      (fun q => if q = 7 then some "boom" else none) none [5] 6).1 "new failed" rfl rfl
  · exact ((writeRTP_contract (Except.ok ([] : List Nat))
      (fun (s : List Nat) p => s ++ [p]) (fun s => (([] : List Nat), s))
      (fun q => if q = 7 then some "boom" else none) (some []) [5] 7).2 []
      (Or.inl rfl)).trans (by decide)

/-- C7: constructing the Transcriber with any codec whose MIME type does
not case-fold to `audio/opus` returns the configuration error and no
object: no handle (hence no goroutine, no recognition session, no sample
builder, no encoder) is ever created on that path, the rejection preceding
every allocation in `NewTranscriber`. -/
theorem unsupported_codec_rejected (rtpCodec : RTPCodecParameters)
    (h : equalFold rtpCodec.mimeType "audio/opus" = false) :
    NewTranscriber rtpCodec = .error "only opus is supported" ∧
    ∀ t : TranscriberHandle, NewTranscriber rtpCodec ≠ .ok t := by
  have herr : NewTranscriber rtpCodec = .error "only opus is supported" := by
    unfold NewTranscriber
    simp [h]
  exact ⟨herr, fun t ht => by rw [herr] at ht; cases ht⟩

/-- Witness for C7 at the non-opus codec `audio/PCMU`. -/
theorem unsupported_codec_rejected_witness :
    NewTranscriber ⟨"audio/PCMU", 8000, 1⟩ = .error "only opus is supported" ∧
    ∀ t : TranscriberHandle, NewTranscriber ⟨"audio/PCMU", 8000, 1⟩ ≠ .ok t :=
  unsupported_codec_rejected ⟨"audio/PCMU", 8000, 1⟩ (by decide)

end Transcriber
